import Mathlib

/-!
Verification of the proximity/collision, scoring, particle and text-popup
logic of the Hill Climb demo (`main.cpp`).  Real numbers of the program are
embedded as rationals; every definition mirrors the corresponding C++
function or code block.
-/

namespace HillClimb

/-- RGB colour triple (embedding of a `glm::vec3` colour value). -/
structure Vec3 where
  x : ℚ
  y : ℚ
  z : ℚ
deriving DecidableEq

/-- Componentwise scalar multiplication of a colour, as in `ft.color * alpha`. -/
def Vec3.smul (a : ℚ) (v : Vec3) : Vec3 := ⟨a * v.x, a * v.y, a * v.z⟩

/-- `g_boxColor(0.2f, 0.5f, 0.8f)`. -/
def g_boxColor : Vec3 := ⟨1/5, 1/2, 4/5⟩

/-- `g_yellowColor(1.0f, 1.0f, 0.0f)`. -/
def g_yellowColor : Vec3 := ⟨1, 1, 0⟩

/-- `struct AABB { float minX, minY, maxX, maxY; }`. -/
structure AABB where
  minX : ℚ
  minY : ℚ
  maxX : ℚ
  maxY : ℚ
deriving DecidableEq

/-- `getAABBWithProximity`: box around the body position inflated by the
half extents plus the proximity margin on every side. -/
def getAABBWithProximity (pos : ℚ × ℚ) (halfW halfH proximity : ℚ) : AABB :=
  ⟨pos.1 - halfW - proximity, pos.2 - halfH - proximity,
   pos.1 + halfW + proximity, pos.2 + halfH + proximity⟩

/-- `aabbOverlap`: not disjoint on either axis, with strict comparisons in
the disjointness test. -/
def aabbOverlap (a b : AABB) : Bool :=
  !(decide (a.maxX < b.minX) || decide (a.minX > b.maxX) ||
    decide (a.maxY < b.minY) || decide (a.minY > b.maxY))

theorem aabbOverlap_eq_true_iff (a b : AABB) :
    aabbOverlap a b = true ↔
      b.minX ≤ a.maxX ∧ a.minX ≤ b.maxX ∧ b.minY ≤ a.maxY ∧ a.minY ≤ b.maxY := by
  simp only [aabbOverlap, Bool.not_eq_true', Bool.or_eq_false_iff,
    decide_eq_false_iff_not, not_lt, gt_iff_lt]
  tauto

/-- Claim C1: the composed check (`getAABBWithProximity` on each body followed
by `aabbOverlap`) returns true exactly when the inflated closed intervals
`[c - half - margin, c + half + margin]` intersect on both the X and Y axis;
since the intervals are closed, touching edges count as overlapping. -/
theorem composed_proximity_overlap_iff (cA cB : ℚ × ℚ)
    (hwA hhA hwB hhB mA mB : ℚ)
    (h1 : 0 ≤ hwA + mA) (h2 : 0 ≤ hhA + mA)
    (h3 : 0 ≤ hwB + mB) (h4 : 0 ≤ hhB + mB) :
    aabbOverlap (getAABBWithProximity cA hwA hhA mA)
        (getAABBWithProximity cB hwB hhB mB) = true ↔
      (Set.Icc (cA.1 - hwA - mA) (cA.1 + hwA + mA) ∩
        Set.Icc (cB.1 - hwB - mB) (cB.1 + hwB + mB)).Nonempty ∧
      (Set.Icc (cA.2 - hhA - mA) (cA.2 + hhA + mA) ∩
        Set.Icc (cB.2 - hhB - mB) (cB.2 + hhB + mB)).Nonempty := by
  rw [aabbOverlap_eq_true_iff]
  simp only [getAABBWithProximity, Set.Icc_inter_Icc, Set.nonempty_Icc,
    sup_le_iff, le_inf_iff]
  constructor
  · rintro ⟨hx1, hx2, hy1, hy2⟩
    exact ⟨⟨⟨by linarith, by linarith⟩, by linarith, by linarith⟩,
           ⟨⟨by linarith, by linarith⟩, by linarith, by linarith⟩⟩
  · rintro ⟨⟨⟨_, hxa⟩, hxb, _⟩, ⟨⟨_, hya⟩, hyb, _⟩⟩
    exact ⟨by linarith, by linarith, by linarith, by linarith⟩

/-- Witness for C1: two unit boxes with margins whose inflated intervals
touch exactly at an edge. -/
theorem composed_proximity_overlap_iff_witness :
    (0 : ℚ) ≤ 1 + 1 ∧ (0 : ℚ) ≤ 1 + 1 ∧ (0 : ℚ) ≤ 1/2 + 0 ∧ (0 : ℚ) ≤ 1/2 + 0 ∧
    (aabbOverlap (getAABBWithProximity ((0 : ℚ), (0 : ℚ)) 1 1 1)
        (getAABBWithProximity ((5/2 : ℚ), (0 : ℚ)) (1/2) (1/2) 0) = true ↔
      (Set.Icc ((0 : ℚ) - 1 - 1) ((0 : ℚ) + 1 + 1) ∩
        Set.Icc ((5/2 : ℚ) - 1/2 - 0) ((5/2 : ℚ) + 1/2 + 0)).Nonempty ∧
      (Set.Icc ((0 : ℚ) - 1 - 1) ((0 : ℚ) + 1 + 1) ∩
        Set.Icc ((0 : ℚ) - 1/2 - 0) ((0 : ℚ) + 1/2 + 0)).Nonempty) :=
  ⟨by norm_num, by norm_num, by norm_num, by norm_num,
   composed_proximity_overlap_iff ((0 : ℚ), (0 : ℚ)) ((5/2 : ℚ), (0 : ℚ))
     1 1 (1/2) (1/2) 1 0 (by norm_num) (by norm_num) (by norm_num) (by norm_num)⟩

/-- Claim C8: `aabbOverlap` is symmetric in its two arguments, and the
composed check reports true whenever the centers are strictly closer than
the sum of the (margin-inflated) half extents on both axes. -/
theorem aabbOverlap_symm_and_close_centers (a b : AABB) (cA cB : ℚ × ℚ)
    (hwA hhA hwB hhB mA mB : ℚ)
    (hx : |cA.1 - cB.1| < (hwA + mA) + (hwB + mB))
    (hy : |cA.2 - cB.2| < (hhA + mA) + (hhB + mB)) :
    aabbOverlap a b = aabbOverlap b a ∧
    aabbOverlap (getAABBWithProximity cA hwA hhA mA)
      (getAABBWithProximity cB hwB hhB mB) = true := by
  constructor
  · rw [Bool.eq_iff_iff, aabbOverlap_eq_true_iff, aabbOverlap_eq_true_iff]
    tauto
  · rw [aabbOverlap_eq_true_iff]
    obtain ⟨hx1, hx2⟩ := abs_lt.mp hx
    obtain ⟨hy1, hy2⟩ := abs_lt.mp hy
    simp only [getAABBWithProximity]
    exact ⟨by linarith, by linarith, by linarith, by linarith⟩

/-- Witness for C8 at concrete boxes and centers. -/
theorem aabbOverlap_symm_and_close_centers_witness :
    |(0 : ℚ) - 2| < (1 + 1) + (1/2 + 0) ∧ |(0 : ℚ) - 0| < (1 + 1) + (1/2 + 0) ∧
    (aabbOverlap ⟨0, 0, 1, 1⟩ ⟨1, 0, 2, 1⟩ = aabbOverlap ⟨1, 0, 2, 1⟩ ⟨0, 0, 1, 1⟩ ∧
     aabbOverlap (getAABBWithProximity ((0 : ℚ), (0 : ℚ)) 1 1 1)
       (getAABBWithProximity ((2 : ℚ), (0 : ℚ)) (1/2) (1/2) 0) = true) :=
  ⟨by norm_num, by norm_num,
   aabbOverlap_symm_and_close_centers ⟨0, 0, 1, 1⟩ ⟨1, 0, 2, 1⟩
     ((0 : ℚ), (0 : ℚ)) ((2 : ℚ), (0 : ℚ)) 1 1 (1/2) (1/2) 1 0
     (by norm_num) (by norm_num)⟩

/-! ## Score popups and the per-frame proximity/scoring block -/

/-- `PIXELS_PER_METER = 50.0f`. -/
def PIXELS_PER_METER : ℚ := 50

/-- `WINDOW_WIDTH = 800`. -/
def WINDOW_WIDTH : ℚ := 800

/-- `WINDOW_HEIGHT = 600`. -/
def WINDOW_HEIGHT : ℚ := 600

/-- World-to-screen conversion used by `spawn_score_popup` (and the body
draws): `p * PIXELS_PER_METER + WINDOW/2` on each axis. -/
def worldToPixels (p : ℚ × ℚ) : ℚ × ℚ :=
  (p.1 * PIXELS_PER_METER + WINDOW_WIDTH / 2,
   p.2 * PIXELS_PER_METER + WINDOW_HEIGHT / 2)

/-- `struct FloatingText`. -/
structure FloatingText where
  text : String
  position : ℚ × ℚ
  life : ℚ
  duration : ℚ
  scale : ℚ
  color : Vec3
  shadowColor : Vec3
  shadowOffset : ℚ × ℚ
deriving DecidableEq

/-- The `FloatingText` value built by `spawn_score_popup(points, position)`. -/
def mkScorePopup (points : ℕ) (position : ℚ × ℚ) : FloatingText :=
  { text := "+" ++ toString points
    position := worldToPixels position
    life := 3/2
    duration := 3/2
    scale := 1/2
    color := ⟨1, 1, 1⟩
    shadowColor := ⟨1/5, 3/5, 1⟩
    shadowOffset := (2, -2) }

/-- `spawn_score_popup`: push one popup onto the floating-text list. -/
def spawn_score_popup (points : ℕ) (position : ℚ × ℚ)
    (ts : List FloatingText) : List FloatingText :=
  ts ++ [mkScorePopup points position]

/-- The surviving-popup update of `update_score_popups`: decremented life
and the 40 px/s rise. -/
def risePopup (dt : ℚ) (ft : FloatingText) : FloatingText :=
  { ft with life := ft.life - dt
            position := (ft.position.1, ft.position.2 + 40 * dt) }

/-- `update_score_popups`: decrement each life by `dt`, erase the popup when
the decremented life is ≤ 0, otherwise raise it by `40 * dt`. -/
def update_score_popups (dt : ℚ) : List FloatingText → List FloatingText
  | [] => []
  | ft :: rest =>
    if ft.life - dt ≤ 0 then update_score_popups dt rest
    else risePopup dt ft :: update_score_popups dt rest

/-- One `render_text` invocation issued by `render_score_popups`. -/
structure TextCmd where
  text : String
  position : ℚ × ℚ
  scale : ℚ
  color : Vec3
  shadowColor : Vec3
  shadowOffset : ℚ × ℚ
deriving DecidableEq

/-- `render_score_popups`: draw each popup with fade alpha
`life / duration` multiplied into both the text and the shadow colour. -/
def render_score_popups (ts : List FloatingText) : List TextCmd :=
  ts.map fun ft =>
    ⟨ft.text, ft.position, ft.scale,
     Vec3.smul (ft.life / ft.duration) ft.color,
     Vec3.smul (ft.life / ft.duration) ft.shadowColor,
     ft.shadowOffset⟩

/-- The mutable state touched by the proximity/scoring block of the main
loop: `currentScore`, `wasPlayerNear`, `floatingTexts` and the box tint
`*(boxUD->color)`. -/
structure GameState where
  currentScore : ℤ
  wasPlayerNear : Bool
  floatingTexts : List FloatingText
  boxColor : Vec3
deriving DecidableEq

/-- The per-frame proximity test of the main loop: the player AABB inflated
by the 1 m margin against the box AABB at its normal half extents. -/
def isPlayerNearCheck (playerPos boxPos : ℚ × ℚ) : Bool :=
  aabbOverlap (getAABBWithProximity playerPos 1 1 1)
    (getAABBWithProximity boxPos (1/2) (1/2) 0)

/-- The proximity/scoring block of one main-loop iteration (color reset,
overlap test, rising-edge scoring with popup spawn at
`(boxPos.x, boxPos.y + 1)`, flag update). -/
def proximityStep (playerPos boxPos : ℚ × ℚ) (s : GameState) : GameState :=
  if isPlayerNearCheck playerPos boxPos then
    if !s.wasPlayerNear then
      { currentScore := s.currentScore + 10
        wasPlayerNear := true
        floatingTexts := spawn_score_popup 10 (boxPos.1, boxPos.2 + 1) s.floatingTexts
        boxColor := g_yellowColor }
    else
      { s with wasPlayerNear := true, boxColor := g_yellowColor }
  else
    { s with wasPlayerNear := false, boxColor := g_boxColor }

/-- Iterate the scoring block over a sequence of frames, each frame giving
the player and box positions read from the physics world. -/
def runFrames (frames : List ((ℚ × ℚ) × (ℚ × ℚ))) (s : GameState) : GameState :=
  frames.foldl (fun st f => proximityStep f.1 f.2 st) s

/-- Number of rising edges of an overlap sequence, given the value of the
was-overlapping flag before the first frame. -/
def countRisingEdges (was : Bool) : List Bool → ℕ
  | [] => 0
  | b :: rest => (if b && !was then 1 else 0) + countRisingEdges b rest

theorem proximityStep_wasPlayerNear (pPos bPos : ℚ × ℚ) (s : GameState) :
    (proximityStep pPos bPos s).wasPlayerNear = isPlayerNearCheck pPos bPos := by
  unfold proximityStep
  by_cases h : isPlayerNearCheck pPos bPos <;> by_cases h' : s.wasPlayerNear <;>
    simp [h, h']

theorem proximityStep_currentScore (pPos bPos : ℚ × ℚ) (s : GameState) :
    (proximityStep pPos bPos s).currentScore =
      s.currentScore +
        (if isPlayerNearCheck pPos bPos && !s.wasPlayerNear then 10 else 0) := by
  unfold proximityStep
  by_cases h : isPlayerNearCheck pPos bPos <;> by_cases h' : s.wasPlayerNear <;>
    simp [h, h']

theorem proximityStep_floatingTexts (pPos bPos : ℚ × ℚ) (s : GameState) :
    (proximityStep pPos bPos s).floatingTexts =
      if isPlayerNearCheck pPos bPos && !s.wasPlayerNear then
        s.floatingTexts ++ [mkScorePopup 10 (bPos.1, bPos.2 + 1)]
      else s.floatingTexts := by
  unfold proximityStep spawn_score_popup
  by_cases h : isPlayerNearCheck pPos bPos <;> by_cases h' : s.wasPlayerNear <;>
    simp [h, h']

theorem runFrames_score_popups (frames : List ((ℚ × ℚ) × (ℚ × ℚ)))
    (s : GameState) :
    (runFrames frames s).currentScore =
      s.currentScore +
        10 * countRisingEdges s.wasPlayerNear
          (frames.map fun f => isPlayerNearCheck f.1 f.2) ∧
    (runFrames frames s).floatingTexts.length =
      s.floatingTexts.length +
        countRisingEdges s.wasPlayerNear
          (frames.map fun f => isPlayerNearCheck f.1 f.2) := by
  induction frames generalizing s with
  | nil => simp [runFrames, countRisingEdges]
  | cons f rest ih =>
    have hstep : runFrames (f :: rest) s = runFrames rest (proximityStep f.1 f.2 s) := rfl
    obtain ⟨ihs, ihp⟩ := ih (proximityStep f.1 f.2 s)
    rw [hstep]
    constructor
    · rw [ihs, proximityStep_currentScore, proximityStep_wasPlayerNear]
      simp only [List.map_cons, countRisingEdges]
      by_cases h : isPlayerNearCheck f.1 f.2 && !s.wasPlayerNear <;> simp [h] <;> omega
    · rw [ihp, proximityStep_floatingTexts, proximityStep_wasPlayerNear]
      simp only [List.map_cons, countRisingEdges]
      by_cases h : isPlayerNearCheck f.1 f.2 && !s.wasPlayerNear <;> simp [h] <;> omega

theorem proximityStep_boxColor (pPos bPos : ℚ × ℚ) (s : GameState) :
    (proximityStep pPos bPos s).boxColor =
      if isPlayerNearCheck pPos bPos then g_yellowColor else g_boxColor := by
  unfold proximityStep
  by_cases h : isPlayerNearCheck pPos bPos <;> by_cases h' : s.wasPlayerNear <;>
    simp [h, h']

theorem isPlayerNearCheck_origin :
    isPlayerNearCheck ((0 : ℚ), (0 : ℚ)) ((0 : ℚ), (0 : ℚ)) = true := by
  rw [isPlayerNearCheck, aabbOverlap_eq_true_iff]
  simp only [getAABBWithProximity]
  norm_num

theorem isPlayerNearCheck_far :
    isPlayerNearCheck ((100 : ℚ), (0 : ℚ)) ((0 : ℚ), (0 : ℚ)) = false := by
  rw [Bool.eq_false_iff]
  intro hcontr
  rw [isPlayerNearCheck, aabbOverlap_eq_true_iff] at hcontr
  simp only [getAABBWithProximity] at hcontr
  norm_num at hcontr

/-- Claim C2: the score increases by 10 (and exactly one popup is spawned)
precisely on rising edges of the overlap state, never on any other
iteration; over a whole frame sequence the score grows by 10 times the
rising-edge count, and the overlap flag always records the current frame's
result.  The concrete conjunct runs the 5-overlap / separate / re-overlap
scenario: the score rises exactly twice. -/
theorem score_increments_exactly_on_rising_edges
    (frames : List ((ℚ × ℚ) × (ℚ × ℚ))) (pPos bPos : ℚ × ℚ) (s : GameState) :
    ((proximityStep pPos bPos s).currentScore =
        if isPlayerNearCheck pPos bPos && !s.wasPlayerNear
        then s.currentScore + 10 else s.currentScore) ∧
    ((proximityStep pPos bPos s).floatingTexts.length =
        if isPlayerNearCheck pPos bPos && !s.wasPlayerNear
        then s.floatingTexts.length + 1 else s.floatingTexts.length) ∧
    (proximityStep pPos bPos s).wasPlayerNear = isPlayerNearCheck pPos bPos ∧
    ((runFrames frames s).currentScore =
        s.currentScore + 10 * countRisingEdges s.wasPlayerNear
          (frames.map fun f => isPlayerNearCheck f.1 f.2)) ∧
    ((runFrames frames s).floatingTexts.length =
        s.floatingTexts.length + countRisingEdges s.wasPlayerNear
          (frames.map fun f => isPlayerNearCheck f.1 f.2)) ∧
    (runFrames
        [(((0 : ℚ), (0 : ℚ)), ((0 : ℚ), (0 : ℚ))),
         (((0 : ℚ), (0 : ℚ)), ((0 : ℚ), (0 : ℚ))),
         (((0 : ℚ), (0 : ℚ)), ((0 : ℚ), (0 : ℚ))),
         (((0 : ℚ), (0 : ℚ)), ((0 : ℚ), (0 : ℚ))),
         (((0 : ℚ), (0 : ℚ)), ((0 : ℚ), (0 : ℚ))),
         (((100 : ℚ), (0 : ℚ)), ((0 : ℚ), (0 : ℚ))),
         (((0 : ℚ), (0 : ℚ)), ((0 : ℚ), (0 : ℚ)))]
        ⟨0, false, [], g_boxColor⟩).currentScore = 20 := by
  refine ⟨?_, ?_, proximityStep_wasPlayerNear pPos bPos s, ?_, ?_, ?_⟩
  · rw [proximityStep_currentScore]
    by_cases h : isPlayerNearCheck pPos bPos && !s.wasPlayerNear <;> simp [h]
  · rw [proximityStep_floatingTexts]
    by_cases h : isPlayerNearCheck pPos bPos && !s.wasPlayerNear <;> simp [h]
  · exact (runFrames_score_popups frames s).1
  · exact (runFrames_score_popups frames s).2
  · rw [(runFrames_score_popups _ _).1]
    simp only [List.map_cons, List.map_nil, isPlayerNearCheck_origin,
      isPlayerNearCheck_far, countRisingEdges]
    norm_num

/-- Claim C10: after the collision-state update the box tint is exactly
yellow or the default box colour, tracks the current frame's overlap result
with no hysteresis, and does not depend on the rest of the state (in
particular not on the was-overlapping flag). -/
theorem box_color_tracks_overlap (pPos bPos : ℚ × ℚ) (s : GameState) :
    ((proximityStep pPos bPos s).boxColor = g_yellowColor ∨
     (proximityStep pPos bPos s).boxColor = g_boxColor) ∧
    ((proximityStep pPos bPos s).boxColor = g_yellowColor ↔
      isPlayerNearCheck pPos bPos = true) ∧
    ((proximityStep pPos bPos s).boxColor = g_boxColor ↔
      isPlayerNearCheck pPos bPos = false) ∧
    (∀ s' : GameState,
      (proximityStep pPos bPos s').boxColor = (proximityStep pPos bPos s).boxColor) := by
  have hne : g_yellowColor ≠ g_boxColor := by
    intro hcontr
    have hz := congrArg Vec3.z hcontr
    norm_num [g_yellowColor, g_boxColor] at hz
  by_cases h : isPlayerNearCheck pPos bPos
  · simp [proximityStep_boxColor, h, hne, Ne.symm hne]
  · simp [proximityStep_boxColor, h, hne, Ne.symm hne]

/-! ## Out-of-bounds auto reset -/

/-- Player transform and velocity as read and written by the auto-reset
block. -/
structure PlayerState where
  pos : ℚ × ℚ
  rot : ℚ
  vel : ℚ × ℚ
deriving DecidableEq

/-- The state written by the reset: `b2Body_SetTransform(player, {0,10},
b2MakeRot(0))` and zero linear velocity. -/
def spawnState : PlayerState := ⟨(0, 10), 0, (0, 0)⟩

/-- The auto-reset block of the main loop: if the player's vertical position
is below `-20`, teleport to the spawn transform and zero the velocity. -/
def autoResetIfFallen (p : PlayerState) : PlayerState :=
  if p.pos.2 < -20 then spawnState else p

/-- Claim C3: below the `-20` threshold the reset yields exactly the spawn
position `(0, 10)` (so `y = 10`), zero rotation and zero velocity; at or
above the threshold the transform and velocity are untouched. -/
theorem autoReset_below_threshold (p : PlayerState) :
    (p.pos.2 < -20 → autoResetIfFallen p = ⟨(0, 10), 0, (0, 0)⟩) ∧
    (-20 ≤ p.pos.2 → autoResetIfFallen p = p) := by
  constructor
  · intro h
    simp [autoResetIfFallen, h, spawnState]
  · intro h
    simp [autoResetIfFallen, not_lt.mpr h]

/-- Witness for C3: a player fallen to `y = -25` is reset to the spawn
state; a player at `y = 5` is untouched. -/
theorem autoReset_below_threshold_witness :
    autoResetIfFallen ⟨(3, -25), 2, (4, 5)⟩ = ⟨(0, 10), 0, (0, 0)⟩ ∧
    autoResetIfFallen ⟨(3, 5), 2, (4, 5)⟩ = ⟨(3, 5), 2, (4, 5)⟩ :=
  ⟨(autoReset_below_threshold ⟨(3, -25), 2, (4, 5)⟩).1 (by norm_num),
   (autoReset_below_threshold ⟨(3, 5), 2, (4, 5)⟩).2 (by norm_num)⟩

/-! ## Input processing -/

/-- Pressed-state of the keys polled by `process_input`. -/
structure InputState where
  left : Bool
  right : Bool
  space : Bool
  rkey : Bool
deriving DecidableEq

/-- The body commands `process_input` issues for the player: the forces
passed to `b2Body_ApplyForceToCenter`, the impulses passed to
`b2Body_ApplyLinearImpulseToCenter`, and whether the R-key reset fires.
(The X-key explosion branch touches only the particle pool, modelled by
`spawn_explosion`.) -/
structure InputEffects where
  forces : List (ℚ × ℚ)
  impulses : List (ℚ × ℚ)
  transformReset : Bool
deriving DecidableEq

/-- `process_input`: horizontal force of magnitude 20 per held direction
key; a `(0, 6)` jump impulse when space is held and `|vel.y| < 0.01`; a
transform/velocity reset on R. -/
def process_input (keys : InputState) (vel : ℚ × ℚ) : InputEffects :=
  { forces := (if keys.left then [((-20 : ℚ), (0 : ℚ))] else []) ++
      (if keys.right then [((20 : ℚ), (0 : ℚ))] else [])
    impulses := if keys.space && decide (|vel.2| < 1/100) then [((0 : ℚ), (6 : ℚ))] else []
    transformReset := keys.rkey }

/-- Claim C4: the upward jump impulse `(0, 6)` is applied exactly when space
is held and the vertical speed magnitude is below the 0.01 grounded
threshold; the impulse list is never anything else, and an already-airborne
body (`|vel.y| ≥ 0.01`) never receives an impulse. -/
theorem jump_impulse_gated (keys : InputState) (vel : ℚ × ℚ) :
    ((process_input keys vel).impulses = [((0 : ℚ), (6 : ℚ))] ↔
      keys.space = true ∧ |vel.2| < 1/100) ∧
    ((process_input keys vel).impulses = [((0 : ℚ), (6 : ℚ))] ∨
      (process_input keys vel).impulses = []) ∧
    (1/100 ≤ |vel.2| → (process_input keys vel).impulses = []) := by
  rcases lt_or_le |vel.2| (1/100) with hv | hv
  · have hv2 : |vel.2| < (100 : ℚ)⁻¹ := by rw [← one_div]; exact hv
    by_cases hs : keys.space = true
    · exact ⟨by simp [process_input, hs, hv, hv2],
        Or.inl (by simp [process_input, hs, hv, hv2]),
        fun hair => absurd hv (not_lt.mpr hair)⟩
    · rw [Bool.not_eq_true] at hs
      exact ⟨by simp [process_input, hs],
        Or.inr (by simp [process_input, hs]),
        fun _ => by simp [process_input, hs]⟩
  · have hv2 : (100 : ℚ)⁻¹ ≤ |vel.2| := by rw [← one_div]; exact hv
    have hv' : ¬ |vel.2| < 1/100 := not_lt.mpr hv
    exact ⟨by simp [process_input, hv', hv2],
      Or.inr (by simp [process_input, hv', hv2]),
      fun _ => by simp [process_input, hv', hv2]⟩

/-- Witness for C4: with space held but the body moving upward at 5 m/s, no
impulse is issued. -/
theorem jump_impulse_gated_witness :
    (1 : ℚ)/100 ≤ |((0 : ℚ), (5 : ℚ)).2| ∧
    (process_input ⟨false, false, true, false⟩ ((0 : ℚ), (5 : ℚ))).impulses = [] :=
  ⟨by norm_num,
   (jump_impulse_gated ⟨false, false, true, false⟩ ((0 : ℚ), (5 : ℚ))).2.2 (by norm_num)⟩

/-! ## Score popup contract (claim C7) -/

theorem mem_update_score_popups (dt : ℚ) (ts : List FloatingText) (q : FloatingText) :
    q ∈ update_score_popups dt ts ↔
      ∃ ft ∈ ts, 0 < ft.life - dt ∧ q = risePopup dt ft := by
  induction ts with
  | nil => simp [update_score_popups]
  | cons ft rest ih =>
    by_cases h : ft.life - dt ≤ 0
    · have hdead : ¬ dt < ft.life := by linarith
      simp [update_score_popups, h, ih, hdead]
    · have halive : dt < ft.life := by linarith
      simp [update_score_popups, h, ih, halive]

theorem isPlayerNearCheck_twoSix :
    isPlayerNearCheck ((2 : ℚ), (6 : ℚ)) ((2 : ℚ), (6 : ℚ)) = true := by
  rw [isPlayerNearCheck, aabbOverlap_eq_true_iff]
  simp only [getAABBWithProximity]
  norm_num

/-- Counterexample to C7 as stated: with the box at `(2, 6)`, the rising
edge spawns its single popup anchored at the screen image of `(2, 7)` — one
meter above the box — and that differs from the screen image of the box's
own position `(2, 6)`. -/
theorem popup_spawn_position_cex :
    ((proximityStep ((2 : ℚ), (6 : ℚ)) ((2 : ℚ), (6 : ℚ))
        ⟨0, false, [], g_boxColor⟩).floatingTexts.map FloatingText.position) =
      [worldToPixels ((2 : ℚ), (6 : ℚ) + 1)] ∧
    worldToPixels ((2 : ℚ), (6 : ℚ) + 1) ≠ worldToPixels ((2 : ℚ), (6 : ℚ)) := by
  constructor
  · rw [proximityStep_floatingTexts]
    simp [isPlayerNearCheck_twoSix, mkScorePopup]
  · intro hcontr
    have h2 := congrArg Prod.snd hcontr
    rw [worldToPixels, worldToPixels] at h2
    norm_num [PIXELS_PER_METER, WINDOW_HEIGHT] at h2

/-- Claim C7 (amended: the popup is anchored at `(boxPos.x, boxPos.y + 1)`,
one meter above the box center, not at the box's position itself): every
scoring event appends exactly one popup with text `"+10"`, lifetime and
duration both `1.5`, whose stored position is the screen image of the spawn
point; rendering multiplies the fade alpha `life / duration` into both the
text colour and the shadow colour; the update removes a popup exactly when
its decremented lifetime is ≤ 0 and raises survivors. -/
theorem score_popup_contract (pPos bPos : ℚ × ℚ) (s : GameState) (dt : ℚ)
    (hnear : isPlayerNearCheck pPos bPos = true)
    (hwas : s.wasPlayerNear = false) :
    (proximityStep pPos bPos s).floatingTexts =
        s.floatingTexts ++ [mkScorePopup 10 (bPos.1, bPos.2 + 1)] ∧
    (mkScorePopup 10 (bPos.1, bPos.2 + 1)).text = "+10" ∧
    (mkScorePopup 10 (bPos.1, bPos.2 + 1)).life = 3/2 ∧
    (mkScorePopup 10 (bPos.1, bPos.2 + 1)).duration = 3/2 ∧
    (mkScorePopup 10 (bPos.1, bPos.2 + 1)).position = worldToPixels (bPos.1, bPos.2 + 1) ∧
    (∀ ts : List FloatingText, ∀ cmd ∈ render_score_popups ts, ∃ ft ∈ ts,
        cmd.text = ft.text ∧
        cmd.color = Vec3.smul (ft.life / ft.duration) ft.color ∧
        cmd.shadowColor = Vec3.smul (ft.life / ft.duration) ft.shadowColor) ∧
    (∀ ts : List FloatingText, ∀ q : FloatingText,
        q ∈ update_score_popups dt ts ↔
          ∃ ft ∈ ts, 0 < ft.life - dt ∧ q = risePopup dt ft) := by
  refine ⟨?_, rfl, rfl, rfl, rfl, ?_, fun ts q => mem_update_score_popups dt ts q⟩
  · rw [proximityStep_floatingTexts, hwas, hnear]
    simp
  · intro ts cmd hcmd
    rw [render_score_popups, List.mem_map] at hcmd
    obtain ⟨ft, hft, rfl⟩ := hcmd
    exact ⟨ft, hft, rfl, rfl, rfl⟩

/-- Witness for C7 (amended) at the box position `(2, 6)` of the scene. -/
theorem score_popup_contract_witness :
    isPlayerNearCheck ((2 : ℚ), (6 : ℚ)) ((2 : ℚ), (6 : ℚ)) = true ∧
    (⟨0, false, [], g_boxColor⟩ : GameState).wasPlayerNear = false ∧
    ((proximityStep ((2 : ℚ), (6 : ℚ)) ((2 : ℚ), (6 : ℚ))
          (⟨0, false, [], g_boxColor⟩ : GameState)).floatingTexts =
        (⟨0, false, [], g_boxColor⟩ : GameState).floatingTexts ++
          [mkScorePopup 10 ((2 : ℚ), (6 : ℚ) + 1)] ∧
      (mkScorePopup 10 ((2 : ℚ), (6 : ℚ) + 1)).text = "+10" ∧
      (mkScorePopup 10 ((2 : ℚ), (6 : ℚ) + 1)).life = 3/2 ∧
      (mkScorePopup 10 ((2 : ℚ), (6 : ℚ) + 1)).duration = 3/2 ∧
      (mkScorePopup 10 ((2 : ℚ), (6 : ℚ) + 1)).position =
        worldToPixels ((2 : ℚ), (6 : ℚ) + 1) ∧
      (∀ ts : List FloatingText, ∀ cmd ∈ render_score_popups ts, ∃ ft ∈ ts,
          cmd.text = ft.text ∧
          cmd.color = Vec3.smul (ft.life / ft.duration) ft.color ∧
          cmd.shadowColor = Vec3.smul (ft.life / ft.duration) ft.shadowColor) ∧
      (∀ ts : List FloatingText, ∀ q : FloatingText,
          q ∈ update_score_popups 1 ts ↔
            ∃ ft ∈ ts, 0 < ft.life - 1 ∧ q = risePopup 1 ft)) :=
  ⟨isPlayerNearCheck_twoSix, rfl,
   score_popup_contract ((2 : ℚ), (6 : ℚ)) ((2 : ℚ), (6 : ℚ))
     (⟨0, false, [], g_boxColor⟩ : GameState) 1 isPlayerNearCheck_twoSix rfl⟩

/-! ## Particle system -/

/-- `struct Particle`. -/
structure Particle where
  position : ℚ × ℚ
  velocity : ℚ × ℚ
  life : ℚ
  size : ℚ
  rotation : ℚ
  rotationSpeed : ℚ
deriving DecidableEq

/-- `MAX_PARTICLES = 100`. -/
def MAX_PARTICLES : ℕ := 100

/-- `g_particleSize = 0.2f`. -/
def g_particleSize : ℚ := 1/5

/-- The loop body of `spawn_explosion`: push each burst particle in turn
while the pool is below `MAX_PARTICLES`, then stop. -/
def spawnLoop : List Particle → List Particle → List Particle
  | ps, [] => ps
  | ps, p :: rest =>
    if ps.length < MAX_PARTICLES then spawnLoop (ps ++ [p]) rest else ps

/-- `spawn_explosion`.  The pseudo-random burst (the code draws a count of
10–15 and random velocity/life/size/rotation fields from `rand()`) is
modelled by the `burst` parameter listing the generated particles. -/
def spawn_explosion (burst : List Particle) (ps : List Particle) : List Particle :=
  spawnLoop ps burst

/-- Size formula of `update_particles` for a surviving particle:
`g_particleSize * (life / 0.5f) * (0.7f + 0.3f * (life / 0.5f))`. -/
def particleSizeOf (life : ℚ) : ℚ :=
  g_particleSize * (life / (1/2)) * (7/10 + 3/10 * (life / (1/2)))

/-- The surviving-particle update of `update_particles`: position advanced
by the old velocity, rotation advanced, gravity applied to the velocity,
and size recomputed from the decremented lifetime. -/
def updateParticle (dt : ℚ) (p : Particle) : Particle :=
  { position := (p.position.1 + p.velocity.1 * dt, p.position.2 + p.velocity.2 * dt)
    velocity := (p.velocity.1, p.velocity.2 - 10 * dt)
    life := p.life - dt
    size := particleSizeOf (p.life - dt)
    rotation := p.rotation + p.rotationSpeed * dt
    rotationSpeed := p.rotationSpeed }

/-- `update_particles`: decrement each life by `dt`, erase the particle when
the decremented life is ≤ 0, otherwise integrate it. -/
def update_particles (dt : ℚ) : List Particle → List Particle
  | [] => []
  | p :: rest =>
    if p.life - dt ≤ 0 then update_particles dt rest
    else updateParticle dt p :: update_particles dt rest

/-- One call against the particle pool, for stating the pool invariant over
arbitrary call sequences. -/
inductive PoolOp where
  | spawn (burst : List Particle)
  | update (dt : ℚ)

/-- Apply one pool call. -/
def applyPoolOp (ps : List Particle) : PoolOp → List Particle
  | .spawn burst => spawn_explosion burst ps
  | .update dt => update_particles dt ps

/-- Apply a sequence of pool calls. -/
def applyPoolOps (ps : List Particle) (ops : List PoolOp) : List Particle :=
  ops.foldl applyPoolOp ps

theorem spawnLoop_length_le (burst ps : List Particle)
    (h : ps.length ≤ MAX_PARTICLES) :
    (spawnLoop ps burst).length ≤ MAX_PARTICLES := by
  induction burst generalizing ps with
  | nil => exact h
  | cons p rest ih =>
    rw [spawnLoop]
    by_cases hlt : ps.length < MAX_PARTICLES
    · rw [if_pos hlt]
      exact ih (ps ++ [p]) (by simp; omega)
    · rw [if_neg hlt]
      exact h

theorem spawnLoop_take (burst ps : List Particle) :
    (spawnLoop ps burst).take ps.length = ps := by
  induction burst generalizing ps with
  | nil => simp [spawnLoop]
  | cons p rest ih =>
    rw [spawnLoop]
    by_cases hlt : ps.length < MAX_PARTICLES
    · rw [if_pos hlt]
      have h1 := ih (ps ++ [p])
      have h2 : (spawnLoop (ps ++ [p]) rest).take ps.length =
          ((spawnLoop (ps ++ [p]) rest).take (ps ++ [p]).length).take ps.length := by
        rw [List.take_take]
        congr 1
        simp only [List.length_append, List.length_cons, List.length_nil]
        omega
      rw [h2, h1]
      simp
    · rw [if_neg hlt]
      simp

theorem update_particles_length_le (dt : ℚ) (ps : List Particle) :
    (update_particles dt ps).length ≤ ps.length := by
  induction ps with
  | nil => simp [update_particles]
  | cons p rest ih =>
    rw [update_particles]
    by_cases h : p.life - dt ≤ 0
    · rw [if_pos h]
      simp only [List.length_cons]
      omega
    · rw [if_neg h]
      simp only [List.length_cons]
      omega

theorem applyPoolOps_length_le (ops : List PoolOp) (ps : List Particle)
    (h : ps.length ≤ MAX_PARTICLES) :
    (applyPoolOps ps ops).length ≤ MAX_PARTICLES := by
  induction ops generalizing ps with
  | nil => exact h
  | cons op rest ih =>
    have hstep : (applyPoolOp ps op).length ≤ MAX_PARTICLES := by
      cases op with
      | spawn burst => exact spawnLoop_length_le burst ps h
      | update dt => exact le_trans (update_particles_length_le dt ps) h
    exact ih (applyPoolOp ps op) hstep

/-- Claim C5: starting from a pool within the 100-particle cap, any sequence
of `spawn_explosion` and `update_particles` calls keeps the pool within the
cap; a spawn never evicts existing particles (they stay as the front of the
pool), and an update never adds particles. -/
theorem particle_pool_bounded (ps : List Particle) (ops : List PoolOp)
    (burst : List Particle) (dt : ℚ) (h : ps.length ≤ MAX_PARTICLES) :
    (applyPoolOps ps ops).length ≤ MAX_PARTICLES ∧
    (spawn_explosion burst ps).take ps.length = ps ∧
    (update_particles dt ps).length ≤ ps.length :=
  ⟨applyPoolOps_length_le ops ps h,
   spawnLoop_take burst ps,
   update_particles_length_le dt ps⟩

/-- Witness for C5: an empty pool stays within the cap across a 150-particle
spawn burst followed by an update. -/
theorem particle_pool_bounded_witness :
    ([] : List Particle).length ≤ MAX_PARTICLES ∧
    ((applyPoolOps []
        [PoolOp.spawn (List.replicate 150 ⟨(0, 0), (0, 0), 1, 1, 0, 0⟩),
         PoolOp.update 1]).length ≤ MAX_PARTICLES ∧
     (spawn_explosion (List.replicate 150 ⟨(0, 0), (0, 0), 1, 1, 0, 0⟩)
        ([] : List Particle)).take ([] : List Particle).length = [] ∧
     (update_particles 1 ([] : List Particle)).length ≤ ([] : List Particle).length) :=
  ⟨by simp,
   particle_pool_bounded []
     [PoolOp.spawn (List.replicate 150 ⟨(0, 0), (0, 0), 1, 1, 0, 0⟩), PoolOp.update 1]
     (List.replicate 150 ⟨(0, 0), (0, 0), 1, 1, 0, 0⟩) 1 (by simp)⟩

theorem mem_update_particles (dt : ℚ) (ps : List Particle) (q : Particle) :
    q ∈ update_particles dt ps ↔
      ∃ p ∈ ps, 0 < p.life - dt ∧ q = updateParticle dt p := by
  induction ps with
  | nil => simp [update_particles]
  | cons p rest ih =>
    by_cases h : p.life - dt ≤ 0
    · have hdead : ¬ dt < p.life := by linarith
      simp [update_particles, h, ih, hdead]
    · have halive : dt < p.life := by linarith
      simp [update_particles, h, ih, halive]

theorem particleSizeOf_zero : particleSizeOf 0 = 0 := by
  norm_num [particleSizeOf]

theorem particleSizeOf_eq_zero_iff (l : ℚ) (hl : 0 ≤ l) :
    (particleSizeOf l = 0 ↔ l = 0) := by
  rw [particleSizeOf, g_particleSize]
  constructor
  · intro h
    rcases eq_or_lt_of_le hl with heq | hpos
    · exact heq.symm
    · exfalso
      have : (0 : ℚ) < 1/5 * (l / (1/2)) * (7/10 + 3/10 * (l / (1/2))) := by positivity
      linarith
  · intro h
    rw [h]
    norm_num

theorem particleSizeOf_mono (l₁ l₂ : ℚ) (h0 : 0 ≤ l₁) (hle : l₁ ≤ l₂) :
    particleSizeOf l₁ ≤ particleSizeOf l₂ := by
  rw [particleSizeOf, particleSizeOf, g_particleSize]
  nlinarith

/-- Claim C6: `update_particles` decrements each lifetime by `dt` and keeps
exactly the particles whose decremented lifetime is positive (so every
survivor has strictly positive lifetime); each survivor's size is the
remaining-lifetime-fraction formula, which is zero exactly at lifetime zero
and shrinks as the lifetime decreases. -/
theorem update_particles_lifecycle (dt : ℚ) (ps : List Particle) (_hdt : 0 < dt) :
    (∀ q ∈ update_particles dt ps, 0 < q.life ∧ q.size = particleSizeOf q.life) ∧
    (∀ q : Particle, q ∈ update_particles dt ps ↔
        ∃ p ∈ ps, 0 < p.life - dt ∧ q = updateParticle dt p) ∧
    particleSizeOf 0 = 0 ∧
    (∀ l : ℚ, 0 ≤ l → (particleSizeOf l = 0 ↔ l = 0)) ∧
    (∀ l₁ l₂ : ℚ, 0 ≤ l₁ → l₁ ≤ l₂ → particleSizeOf l₁ ≤ particleSizeOf l₂) := by
  refine ⟨?_, fun q => mem_update_particles dt ps q, particleSizeOf_zero,
    fun l hl => particleSizeOf_eq_zero_iff l hl,
    fun l₁ l₂ h0 hle => particleSizeOf_mono l₁ l₂ h0 hle⟩
  intro q hq
  obtain ⟨p, _, hpos, rfl⟩ := (mem_update_particles dt ps q).mp hq
  exact ⟨hpos, rfl⟩

/-- Witness for C6 with `dt = 1/10` on a two-particle pool in which one
particle survives and one dies. -/
theorem update_particles_lifecycle_witness :
    (0 : ℚ) < 1/10 ∧
    ((∀ q ∈ update_particles (1/10)
          [⟨(0, 0), (0, 0), 1, 1, 0, 0⟩, ⟨(0, 0), (0, 0), 1/20, 1, 0, 0⟩],
        0 < q.life ∧ q.size = particleSizeOf q.life) ∧
     (∀ q : Particle, q ∈ update_particles (1/10)
          [⟨(0, 0), (0, 0), 1, 1, 0, 0⟩, ⟨(0, 0), (0, 0), 1/20, 1, 0, 0⟩] ↔
        ∃ p ∈ [⟨(0, 0), (0, 0), 1, 1, 0, 0⟩,
               (⟨(0, 0), (0, 0), 1/20, 1, 0, 0⟩ : Particle)],
          0 < p.life - 1/10 ∧ q = updateParticle (1/10) p) ∧
     particleSizeOf 0 = 0 ∧
     (∀ l : ℚ, 0 ≤ l → (particleSizeOf l = 0 ↔ l = 0)) ∧
     (∀ l₁ l₂ : ℚ, 0 ≤ l₁ → l₁ ≤ l₂ → particleSizeOf l₁ ≤ particleSizeOf l₂)) :=
  ⟨by norm_num,
   update_particles_lifecycle (1/10)
     [⟨(0, 0), (0, 0), 1, 1, 0, 0⟩, ⟨(0, 0), (0, 0), 1/20, 1, 0, 0⟩] (by norm_num)⟩

/-! ## Text rendering (claim C9) -/

/-- `struct Character`: per-glyph texture, pixel size, bearing and advance
(in 1/64 pixel units, as delivered by FreeType). -/
structure Character where
  textureID : ℕ
  sizeX : ℤ
  sizeY : ℤ
  bearingX : ℤ
  bearingY : ℤ
  advance : ℕ
deriving DecidableEq

/-- The value produced for an absent key by `characters[ch]`:
`std::map::operator[]` value-initializes the mapped `Character`, zeroing
every field. -/
def defaultCharacter : Character := ⟨0, 0, 0, 0, 0, 0⟩

/-- `characters[ch]` — the stored glyph when the key is present, otherwise
the value-initialized default that `operator[]` inserts. -/
def characterLookup (table : Char → Option Character) (c : Char) : Character :=
  (table c).getD defaultCharacter

/-- One `glDrawArrays` quad issued by `render_text` for one character. -/
structure GlyphDraw where
  ch : Char
  glyph : Character
  x : ℚ
  y : ℚ
  w : ℚ
  h : ℚ
  color : Vec3
deriving DecidableEq

/-- One pass of the `draw` lambda inside `render_text`: left-to-right layout
advancing `xpos` by `(advance >> 6) * scale` per character. -/
def drawPass (table : Char → Option Character) (color : Vec3) (scale : ℚ) :
    ℚ → ℚ → List Char → List GlyphDraw
  | _, _, [] => []
  | xpos, ypos, c :: rest =>
    let chdata := characterLookup table c
    { ch := c
      glyph := chdata
      x := xpos + chdata.bearingX * scale
      y := ypos - (chdata.sizeY - chdata.bearingY) * scale
      w := chdata.sizeX * scale
      h := chdata.sizeY * scale
      color := color } ::
      drawPass table color scale (xpos + ((chdata.advance >>> 6 : ℕ) : ℚ) * scale) ypos rest

/-- `render_text`: shadow pass at the shadow offset first, then the main
pass on top. -/
def render_text (table : Char → Option Character) (text : List Char)
    (x y scale : ℚ) (color shadowColor : Vec3) (shadowOffset : ℚ × ℚ) :
    List GlyphDraw :=
  drawPass table shadowColor scale (x + shadowOffset.1) (y + shadowOffset.2) text ++
  drawPass table color scale x y text

theorem mem_drawPass_glyph (table : Char → Option Character) (color : Vec3)
    (scale : ℚ) (text : List Char) :
    ∀ xpos ypos : ℚ, ∀ d ∈ drawPass table color scale xpos ypos text,
      table d.ch = some d.glyph ∨
      (table d.ch = none ∧ d.glyph = defaultCharacter ∧ d.w = 0 ∧ d.h = 0) := by
  induction text with
  | nil => intro xpos ypos d hd; simp [drawPass] at hd
  | cons c rest ih =>
    intro xpos ypos d hd
    rw [drawPass] at hd
    rcases List.mem_cons.mp hd with hhead | htail
    · subst hhead
      cases htable : table c with
      | some g => exact Or.inl (by simp [characterLookup, htable])
      | none =>
        refine Or.inr ⟨by simp [characterLookup, htable], by simp [characterLookup, htable], ?_, ?_⟩
        · simp [characterLookup, htable, defaultCharacter]
        · simp [characterLookup, htable, defaultCharacter]
    · exact ih _ ypos d htail

/-- Claim C9: every glyph quad `render_text` draws (in either the shadow or
the main pass) uses either the table entry for its character or, for a
character absent from the table, the fixed value-initialized zero glyph — a
deterministic zero-size substitute — never unspecified glyph data. -/
theorem renderText_substitutes_missing_glyphs (table : Char → Option Character)
    (text : List Char) (x y scale : ℚ) (color shadowColor : Vec3)
    (shadowOffset : ℚ × ℚ) :
    ∀ d ∈ render_text table text x y scale color shadowColor shadowOffset,
      table d.ch = some d.glyph ∨
      (table d.ch = none ∧ d.glyph = defaultCharacter ∧ d.w = 0 ∧ d.h = 0) := by
  intro d hd
  rcases List.mem_append.mp hd with hsh | hmain
  · exact mem_drawPass_glyph table shadowColor scale text _ _ d hsh
  · exact mem_drawPass_glyph table color scale text _ _ d hmain

/-- Witness for C9: an empty glyph table rendering the single character
`B`; the quad drawn for `B` carries the value-initialized zero glyph. -/
theorem renderText_substitutes_missing_glyphs_witness :
    ((⟨'B', characterLookup (fun _ => none) 'B',
        0 + (characterLookup (fun _ => none) 'B').bearingX * 1,
        0 - ((characterLookup (fun _ => none) 'B').sizeY -
          (characterLookup (fun _ => none) 'B').bearingY) * 1,
        (characterLookup (fun _ => none) 'B').sizeX * 1,
        (characterLookup (fun _ => none) 'B').sizeY * 1,
        ⟨1, 1, 1⟩⟩ : GlyphDraw) ∈
      render_text (fun _ => none) (['B']) 0 0 1 ⟨1, 1, 1⟩ ⟨1, 1, 1⟩ (0, 0)) ∧
    ((fun _ => (none : Option Character))
        (⟨'B', characterLookup (fun _ => none) 'B',
          0 + (characterLookup (fun _ => none) 'B').bearingX * 1,
          0 - ((characterLookup (fun _ => none) 'B').sizeY -
            (characterLookup (fun _ => none) 'B').bearingY) * 1,
          (characterLookup (fun _ => none) 'B').sizeX * 1,
          (characterLookup (fun _ => none) 'B').sizeY * 1,
          (⟨1, 1, 1⟩ : Vec3)⟩ : GlyphDraw).ch =
        some (⟨'B', characterLookup (fun _ => none) 'B',
          0 + (characterLookup (fun _ => none) 'B').bearingX * 1,
          0 - ((characterLookup (fun _ => none) 'B').sizeY -
            (characterLookup (fun _ => none) 'B').bearingY) * 1,
          (characterLookup (fun _ => none) 'B').sizeX * 1,
          (characterLookup (fun _ => none) 'B').sizeY * 1,
          (⟨1, 1, 1⟩ : Vec3)⟩ : GlyphDraw).glyph ∨
      ((fun _ => (none : Option Character))
          (⟨'B', characterLookup (fun _ => none) 'B',
            0 + (characterLookup (fun _ => none) 'B').bearingX * 1,
            0 - ((characterLookup (fun _ => none) 'B').sizeY -
              (characterLookup (fun _ => none) 'B').bearingY) * 1,
            (characterLookup (fun _ => none) 'B').sizeX * 1,
            (characterLookup (fun _ => none) 'B').sizeY * 1,
            (⟨1, 1, 1⟩ : Vec3)⟩ : GlyphDraw).ch = none ∧
        (⟨'B', characterLookup (fun _ => none) 'B',
          0 + (characterLookup (fun _ => none) 'B').bearingX * 1,
          0 - ((characterLookup (fun _ => none) 'B').sizeY -
            (characterLookup (fun _ => none) 'B').bearingY) * 1,
          (characterLookup (fun _ => none) 'B').sizeX * 1,
          (characterLookup (fun _ => none) 'B').sizeY * 1,
          (⟨1, 1, 1⟩ : Vec3)⟩ : GlyphDraw).glyph = defaultCharacter ∧
        (⟨'B', characterLookup (fun _ => none) 'B',
          0 + (characterLookup (fun _ => none) 'B').bearingX * 1,
          0 - ((characterLookup (fun _ => none) 'B').sizeY -
            (characterLookup (fun _ => none) 'B').bearingY) * 1,
          (characterLookup (fun _ => none) 'B').sizeX * 1,
          (characterLookup (fun _ => none) 'B').sizeY * 1,
          (⟨1, 1, 1⟩ : Vec3)⟩ : GlyphDraw).w = 0 ∧
        (⟨'B', characterLookup (fun _ => none) 'B',
          0 + (characterLookup (fun _ => none) 'B').bearingX * 1,
          0 - ((characterLookup (fun _ => none) 'B').sizeY -
            (characterLookup (fun _ => none) 'B').bearingY) * 1,
          (characterLookup (fun _ => none) 'B').sizeX * 1,
          (characterLookup (fun _ => none) 'B').sizeY * 1,
          (⟨1, 1, 1⟩ : Vec3)⟩ : GlyphDraw).h = 0)) := by
  have hmem : (⟨'B', characterLookup (fun _ => none) 'B',
      0 + (characterLookup (fun _ => none) 'B').bearingX * 1,
      0 - ((characterLookup (fun _ => none) 'B').sizeY -
        (characterLookup (fun _ => none) 'B').bearingY) * 1,
      (characterLookup (fun _ => none) 'B').sizeX * 1,
      (characterLookup (fun _ => none) 'B').sizeY * 1,
      ⟨1, 1, 1⟩⟩ : GlyphDraw) ∈
      render_text (fun _ => none) (['B']) 0 0 1 ⟨1, 1, 1⟩ ⟨1, 1, 1⟩ (0, 0) := by
    rw [render_text]
    refine List.mem_append.mpr (Or.inr ?_)
    rw [drawPass]
    exact List.mem_cons_self _ _
  exact ⟨hmem,
    renderText_substitutes_missing_glyphs (fun _ => none) (['B']) 0 0 1
      ⟨1, 1, 1⟩ ⟨1, 1, 1⟩ (0, 0) _ hmem⟩

end HillClimb
